import Mathlib

/-!
Shallow embedding of the Monte Carlo GBM risk simulator
(src/api/simulate.py, function `simulate`, and src/api/main.py,
endpoint body `simulate_risk`) over the real numbers.

Python floats are modelled as real numbers; numpy arrays as lists;
the random matrix `Z` (np.random.standard_normal) as an arbitrary
function `ℕ → ℕ → ℝ` supplied as a parameter; the unhandled
IndexError that an out-of-bounds list access would raise is modelled
by an `Option` result (`none` = the call raises).
-/

noncomputable section

/-- Request record (class SimulationRequest in both source files):
fields current_price, volatility (a percentage), days, num_simulations,
risk_free_rate (default 0.02). -/
structure SimulationRequest where
  current_price : ℝ
  volatility : ℝ
  days : ℕ
  num_simulations : ℕ
  risk_free_rate : ℝ := 0.02

/-- The statistics mapping built by both source files, in source order:
initial_price, mean_final_price, std_dev, min_price, max_price,
var_95_price, var_95_loss, var_95_pct, expected_return. -/
structure Statistics where
  initial_price : ℝ
  mean_final_price : ℝ
  std_dev : ℝ
  min_price : ℝ
  max_price : ℝ
  var_95_price : ℝ
  var_95_loss : ℝ
  var_95_pct : ℝ
  expected_return : ℝ

/-- Result record (the returned dict in simulate.py / the
SimulationResponse model in main.py). -/
structure SimulationResult where
  paths : List (List ℝ)
  mean_path : List ℝ
  percentile_5 : List ℝ
  percentile_95 : List ℝ
  final_prices : List ℝ
  statistics : Statistics

/-! Library models: numpy / Python builtins shared by both source files. -/

/-- Model of np.mean over a 1-d array: sum divided by length. -/
def listMean (l : List ℝ) : ℝ := l.sum / l.length

/-- Model of np.std over a 1-d array (population standard deviation:
square root of the mean squared deviation from the mean). -/
def listStd (l : List ℝ) : ℝ :=
  Real.sqrt (listMean (l.map (fun x => (x - listMean l) ^ 2)))

/-- Model of np.min over a nonempty 1-d array. -/
def listMin : List ℝ → ℝ
  | [] => 0
  | x :: xs => xs.foldl min x

/-- Model of np.max over a nonempty 1-d array. -/
def listMax : List ℝ → ℝ
  | [] => 0
  | x :: xs => xs.foldl max x

/-- Model of np.sort: ascending sort of a 1-d array.  Over a linear
order the sorted permutation is unique, so insertion sort has the same
value as numpy's quicksort. -/
def sortAsc (l : List ℝ) : List ℝ := l.insertionSort (· ≤ ·)

/-- Model of np.percentile with the default linear-interpolation method:
position q/100*(n-1) between order statistics, linear interpolation
between the two neighbouring sorted elements. -/
def npPercentile (q : ℝ) (l : List ℝ) : ℝ :=
  let s := sortAsc l
  let pos := q / 100 * ((l.length : ℝ) - 1)
  let i := ⌊pos⌋₊
  let g := pos - (i : ℝ)
  s.getD i 0 + g * (s.getD (i + 1) 0 - s.getD i 0)

/-- Model of Python round-half-to-even on a real number (the rounding
used by round()). -/
def pyRound (x : ℝ) : ℤ :=
  if Int.fract x < 1 / 2 then ⌊x⌋
  else if 1 / 2 < Int.fract x then ⌈x⌉
  else if Even ⌊x⌋ then ⌊x⌋ else ⌈x⌉

/-- Model of round(x, 2): round half to even at two decimal digits. -/
def round2 (x : ℝ) : ℝ := (pyRound (x * 100) : ℝ) / 100

/-- Model of int(n * 0.05), the VaR index computation
var_95_index = int(len(final_sorted) * 0.05) in both source files
(int() truncates toward zero, which is the floor for nonnegative
arguments). -/
def var_95_index (n : ℕ) : ℕ := ⌊(n : ℝ) * 0.05⌋₊

/-! The simulation engine of src/api/simulate.py, function `simulate`. -/

/-- sigma = request.volatility / 100 (percentage to decimal). -/
def sigmaOf (req : SimulationRequest) : ℝ := req.volatility / 100

/-- mu = request.risk_free_rate. -/
def muOf (req : SimulationRequest) : ℝ := req.risk_free_rate

/-- T = request.days / 252 (trading days per year). -/
def Tof (req : SimulationRequest) : ℝ := (req.days : ℝ) / 252

/-- dt = T / request.days. -/
def dtv (req : SimulationRequest) : ℝ := Tof req / (req.days : ℝ)

/-- Entry (i, t) of the paths matrix after the GBM update loop:
paths[:, 0] = S, and for t from 1 to days
paths[:, t] = paths[:, t-1] * exp((mu - 0.5*sigma**2)*dt + sigma*sqrt(dt)*Z[:, t-1]). -/
def pathEntry (req : SimulationRequest) (Z : ℕ → ℕ → ℝ) (i : ℕ) : ℕ → ℝ
  | 0 => req.current_price
  | t + 1 =>
    pathEntry req Z i t *
      Real.exp ((muOf req - 0.5 * sigmaOf req ^ 2) * dtv req +
        sigmaOf req * Real.sqrt (dtv req) * Z i t)

/-- Column t of the paths matrix (the cross-path slice paths[:, t]). -/
def pathColumn (req : SimulationRequest) (Z : ℕ → ℕ → ℝ) (t : ℕ) : List ℝ :=
  (List.range req.num_simulations).map (fun i => pathEntry req Z i t)

/-- The paths matrix as a row-major list of rows (paths.tolist()). -/
def simPaths (req : SimulationRequest) (Z : ℕ → ℕ → ℝ) : List (List ℝ) :=
  (List.range req.num_simulations).map
    (fun i => (List.range (req.days + 1)).map (fun t => pathEntry req Z i t))

/-- mean_path = np.mean(paths, axis=0).tolist(). -/
def mean_path (req : SimulationRequest) (Z : ℕ → ℕ → ℝ) : List ℝ :=
  (List.range (req.days + 1)).map (fun t => listMean (pathColumn req Z t))

/-- percentile_5 = np.percentile(paths, 5, axis=0).tolist(). -/
def percentile_5 (req : SimulationRequest) (Z : ℕ → ℕ → ℝ) : List ℝ :=
  (List.range (req.days + 1)).map (fun t => npPercentile 5 (pathColumn req Z t))

/-- percentile_95 = np.percentile(paths, 95, axis=0).tolist(). -/
def percentile_95 (req : SimulationRequest) (Z : ℕ → ℕ → ℝ) : List ℝ :=
  (List.range (req.days + 1)).map (fun t => npPercentile 95 (pathColumn req Z t))

/-- final_prices = paths[:, -1].tolist() (the last column, index days). -/
def final_prices (req : SimulationRequest) (Z : ℕ → ℕ → ℝ) : List ℝ :=
  pathColumn req Z req.days

/-- The function simulate of src/api/simulate.py.  Performs no input
validation.  The Option models the function's unhandled Python errors:
none when days = 0 (the plain-float division dt = T / request.days
raises ZeroDivisionError at line 42, before the loop), none when the access
final_sorted[var_95_index] (or the earlier np.percentile of an empty
column) fails for an empty ensemble, and none when current_price = 0,
because var_95_price is cast by float() so the plain-float division
(var_95_loss / S) * 100 at line 69 raises ZeroDivisionError.  With a
nonzero price every division is exact, the Statistics fields are
listed in the source's dict order, var_95_loss = S - v at full
precision, var_95_pct = (var_95_loss / S) * 100, all presentation
fields rounded by round(_, 2). -/
def simulate (req : SimulationRequest) (Z : ℕ → ℕ → ℝ) : Option SimulationResult :=
  let S := req.current_price
  if req.days = 0 then none
  else
    let final_sorted := sortAsc (final_prices req Z)
    match final_sorted[var_95_index final_sorted.length]? with
    | none => none
    | some v =>
      if S = 0 then none
      else
        some ⟨simPaths req Z, mean_path req Z, percentile_5 req Z, percentile_95 req Z,
          final_prices req Z,
          ⟨S, round2 (listMean (final_prices req Z)), round2 (listStd (final_prices req Z)),
            round2 (listMin (final_prices req Z)), round2 (listMax (final_prices req Z)),
            round2 v, round2 (S - v), round2 ((S - v) / S * 100),
            round2 ((listMean (final_prices req Z) - S) / S * 100)⟩⟩

/-! The simulation engine of src/api/main.py, endpoint body
`simulate_risk` — an independent translation of that file's
(textually duplicated) computation. -/

/-- sigma = request.volatility / 100 in main.py. -/
def sigmaM (req : SimulationRequest) : ℝ := req.volatility / 100

/-- mu = request.risk_free_rate in main.py. -/
def muM (req : SimulationRequest) : ℝ := req.risk_free_rate

/-- T = request.days / 252 in main.py. -/
def TofM (req : SimulationRequest) : ℝ := (req.days : ℝ) / 252

/-- dt = T / request.days in main.py. -/
def dtvM (req : SimulationRequest) : ℝ := TofM req / (req.days : ℝ)

/-- Entry (i, t) of the paths matrix built by main.py's loop. -/
def pathEntryM (req : SimulationRequest) (Z : ℕ → ℕ → ℝ) (i : ℕ) : ℕ → ℝ
  | 0 => req.current_price
  | t + 1 =>
    pathEntryM req Z i t *
      Real.exp ((muM req - 0.5 * sigmaM req ^ 2) * dtvM req +
        sigmaM req * Real.sqrt (dtvM req) * Z i t)

/-- Column t of main.py's paths matrix. -/
def pathColumnM (req : SimulationRequest) (Z : ℕ → ℕ → ℝ) (t : ℕ) : List ℝ :=
  (List.range req.num_simulations).map (fun i => pathEntryM req Z i t)

/-- main.py's paths matrix as a list of rows. -/
def simPathsM (req : SimulationRequest) (Z : ℕ → ℕ → ℝ) : List (List ℝ) :=
  (List.range req.num_simulations).map
    (fun i => (List.range (req.days + 1)).map (fun t => pathEntryM req Z i t))

/-- mean_path in main.py. -/
def mean_pathM (req : SimulationRequest) (Z : ℕ → ℕ → ℝ) : List ℝ :=
  (List.range (req.days + 1)).map (fun t => listMean (pathColumnM req Z t))

/-- percentile_5 in main.py. -/
def percentile_5M (req : SimulationRequest) (Z : ℕ → ℕ → ℝ) : List ℝ :=
  (List.range (req.days + 1)).map (fun t => npPercentile 5 (pathColumnM req Z t))

/-- percentile_95 in main.py. -/
def percentile_95M (req : SimulationRequest) (Z : ℕ → ℕ → ℝ) : List ℝ :=
  (List.range (req.days + 1)).map (fun t => npPercentile 95 (pathColumnM req Z t))

/-- final_prices in main.py (last column of paths). -/
def final_pricesM (req : SimulationRequest) (Z : ℕ → ℕ → ℝ) : List ℝ :=
  pathColumnM req Z req.days

/-- The endpoint body simulate_risk of src/api/main.py (its returned
SimulationResponse, with the same fields as simulate.py's dict).
The Option models the unhandled Python errors: none when days = 0 (the
plain-float division dt = T / request.days raises ZeroDivisionError at
line 53, exactly as in simulate.py) and none for the empty-ensemble
IndexError.  Unlike simulate.py, main.py keeps var_95_price as an
np.float64 (no float() cast), so at current_price = 0 the divisions in
var_95_pct and expected_return do NOT raise: numpy scalar division by
zero yields NaN (or infinity) with only a warning and the endpoint
returns a complete response.  This model has no NaN value; the total
real division puts the arbitrary value 0 in those two fields at
current_price = 0, standing in for the NaN junk.  No theorem reads
these fields at current_price = 0: that input is used only to show
that simulate_risk completes where simulate raises. -/
def simulate_risk (req : SimulationRequest) (Z : ℕ → ℕ → ℝ) : Option SimulationResult :=
  let S := req.current_price
  if req.days = 0 then none
  else
    let final_sorted := sortAsc (final_pricesM req Z)
    match final_sorted[var_95_index final_sorted.length]? with
    | none => none
    | some v =>
      some ⟨simPathsM req Z, mean_pathM req Z, percentile_5M req Z, percentile_95M req Z,
        final_pricesM req Z,
        ⟨S, round2 (listMean (final_pricesM req Z)), round2 (listStd (final_pricesM req Z)),
          round2 (listMin (final_pricesM req Z)), round2 (listMax (final_pricesM req Z)),
          round2 v, round2 (S - v), round2 ((S - v) / S * 100),
          round2 ((listMean (final_pricesM req Z) - S) / S * 100)⟩⟩

/-! Concrete inputs used by witnesses and counterexamples. -/

/-- A valid concrete request: price 100, volatility 20 percent, 5 days,
3 paths, drift 0.02. -/
def wReq : SimulationRequest := ⟨100, 20, 5, 3, 0.02⟩

/-- The all-zero draw matrix. -/
def zZero : ℕ → ℕ → ℝ := fun _ _ => 0

/-! General lemmas about the embedding. -/

/-- Every path entry is strictly positive when the starting price is. -/
lemma pathEntry_pos (req : SimulationRequest) (Z : ℕ → ℕ → ℝ) (i : ℕ)
    (hp : 0 < req.current_price) : ∀ t, 0 < pathEntry req Z i t
  | 0 => hp
  | t + 1 => mul_pos (pathEntry_pos req Z i hp t) (Real.exp_pos _)

/-- Reading entry (i, t) of the row-major paths list gives pathEntry. -/
lemma simPaths_getD (req : SimulationRequest) (Z : ℕ → ℕ → ℝ) {i t : ℕ}
    (hi : i < req.num_simulations) (ht : t ≤ req.days) :
    ((simPaths req Z).getD i []).getD t 0 = pathEntry req Z i t := by
  have h1 : i < (List.range req.num_simulations).length := by simpa using hi
  have ht' : t < req.days + 1 := by omega
  simp [simPaths, List.getD_eq_getElem?_getD, List.getElem?_map,
    List.getElem?_range, hi, ht']

/-- The final-prices list has one entry per simulated path. -/
lemma length_final_prices (req : SimulationRequest) (Z : ℕ → ℕ → ℝ) :
    (final_prices req Z).length = req.num_simulations := by
  simp [final_prices, pathColumn]

/-- Sorting preserves length. -/
lemma length_sortAsc (l : List ℝ) : (sortAsc l).length = l.length :=
  List.length_insertionSort _ _

/-- The VaR index is in bounds for a nonempty sample. -/
lemma var_95_index_lt {n : ℕ} (h : 1 ≤ n) : var_95_index n < n := by
  have hn : (1 : ℝ) ≤ (n : ℝ) := by exact_mod_cast h
  unfold var_95_index
  rw [Nat.floor_lt (by positivity)]
  nlinarith

/-- For a nonempty ensemble, at least one day and a nonzero starting
price, simulate reaches no error: the match takes the some branch, the
zero-division guard passes, and the fully assembled result is returned,
with the VaR price being the sorted final prices read at the VaR index. -/
lemma simulate_eq_some (req : SimulationRequest) (Z : ℕ → ℕ → ℝ)
    (hd : 1 ≤ req.days) (hS : req.current_price ≠ 0)
    (hn : 1 ≤ req.num_simulations) :
    simulate req Z = some ⟨simPaths req Z, mean_path req Z, percentile_5 req Z,
      percentile_95 req Z, final_prices req Z,
      ⟨req.current_price, round2 (listMean (final_prices req Z)),
        round2 (listStd (final_prices req Z)), round2 (listMin (final_prices req Z)),
        round2 (listMax (final_prices req Z)),
        round2 ((sortAsc (final_prices req Z)).getD (var_95_index req.num_simulations) 0),
        round2 (req.current_price -
          (sortAsc (final_prices req Z)).getD (var_95_index req.num_simulations) 0),
        round2 ((req.current_price -
          (sortAsc (final_prices req Z)).getD (var_95_index req.num_simulations) 0) /
            req.current_price * 100),
        round2 ((listMean (final_prices req Z) - req.current_price) /
          req.current_price * 100)⟩⟩ := by
  have hlen : (sortAsc (final_prices req Z)).length = req.num_simulations := by
    rw [length_sortAsc, length_final_prices]
  have hidx : var_95_index (sortAsc (final_prices req Z)).length <
      (sortAsc (final_prices req Z)).length := by
    rw [hlen]; exact var_95_index_lt hn
  have hsome := List.getElem?_eq_getElem hidx
  have hgetD : (sortAsc (final_prices req Z))[var_95_index
      (sortAsc (final_prices req Z)).length] =
      (sortAsc (final_prices req Z)).getD (var_95_index req.num_simulations) 0 := by
    rw [List.getD_eq_getElem?_getD, ← hlen, hsome]; rfl
  have hd0 : ¬ req.days = 0 := by omega
  simp only [simulate, if_neg hd0, hsome, hgetD, if_neg hS]

/-- With a zero starting price simulate fails: once the VaR element has
been read, the plain-float division (var_95_loss / S) * 100 raises
ZeroDivisionError (and with days = 0 the dt division raises even
earlier). -/
lemma simulate_eq_none_of_price_zero (req : SimulationRequest) (Z : ℕ → ℕ → ℝ)
    (hn : 1 ≤ req.num_simulations) (hS : req.current_price = 0) :
    simulate req Z = none := by
  by_cases hd0 : req.days = 0
  · simp [simulate, hd0]
  · have hlen : (sortAsc (final_prices req Z)).length = req.num_simulations := by
      rw [length_sortAsc, length_final_prices]
    have hidx : var_95_index (sortAsc (final_prices req Z)).length <
        (sortAsc (final_prices req Z)).length := by
      rw [hlen]; exact var_95_index_lt hn
    have hsome := List.getElem?_eq_getElem hidx
    simp only [simulate, if_neg hd0, hsome, if_pos hS]

/-- Auxiliary: with zero volatility the recurrence telescopes to the
pure drift exponential at every step. -/
lemma pathEntry_volatility_zero (req : SimulationRequest) (Z : ℕ → ℕ → ℝ) (i : ℕ)
    (hv0 : req.volatility = 0) :
    ∀ t, pathEntry req Z i t = req.current_price * Real.exp (muOf req * t * dtv req) := by
  have hs : sigmaOf req = 0 := by simp [sigmaOf, hv0]
  intro t
  induction t with
  | zero => simp [pathEntry]
  | succ t ih =>
    rw [pathEntry, ih, hs, mul_assoc, ← Real.exp_add]
    push_cast
    ring_nf

/-! Claim theorems. -/

/-- C1: for every valid input and every draw matrix Z, the path entry at
step t (1 ≤ t ≤ days) equals the entry at step t-1 multiplied by
exp((mu - 0.5*sigma^2)*dt + sigma*sqrt(dt)*Z[t-1]), with
sigma = volatility/100, mu = risk_free_rate, dt = (days/252)/days. -/
theorem gbm_step (req : SimulationRequest) (Z : ℕ → ℕ → ℝ) (i t : ℕ)
    (hp : 0 < req.current_price) (hv : 0 ≤ req.volatility)
    (hd : 1 ≤ req.days) (hn : 1 ≤ req.num_simulations)
    (ht1 : 1 ≤ t) (ht2 : t ≤ req.days) :
    pathEntry req Z i t = pathEntry req Z i (t - 1) *
      Real.exp ((muOf req - 0.5 * sigmaOf req ^ 2) * dtv req +
        sigmaOf req * Real.sqrt (dtv req) * Z i (t - 1)) := by
  cases t with
  | zero => omega
  | succ s => rfl

theorem gbm_step_witness :
    (0 : ℝ) < wReq.current_price ∧ (0 : ℝ) ≤ wReq.volatility ∧
    1 ≤ wReq.days ∧ 1 ≤ wReq.num_simulations ∧ 1 ≤ 1 ∧ 1 ≤ wReq.days ∧
    pathEntry wReq zZero 0 1 = pathEntry wReq zZero 0 (1 - 1) *
      Real.exp ((muOf wReq - 0.5 * sigmaOf wReq ^ 2) * dtv wReq +
        sigmaOf wReq * Real.sqrt (dtv wReq) * zZero 0 (1 - 1)) :=
  ⟨by norm_num [wReq], by norm_num [wReq], by norm_num [wReq], by norm_num [wReq],
    le_refl 1, by norm_num [wReq],
    gbm_step wReq zZero 0 1 (by norm_num [wReq]) (by norm_num [wReq])
      (by norm_num [wReq]) (by norm_num [wReq]) (le_refl 1) (by norm_num [wReq])⟩

/-- C4: for every valid input and draw, every entry of the paths
ensemble is strictly positive and the column-0 entry of every row
equals current_price exactly. -/
theorem paths_positive (req : SimulationRequest) (Z : ℕ → ℕ → ℝ) (i t : ℕ)
    (hp : 0 < req.current_price) (hi : i < req.num_simulations) (ht : t ≤ req.days) :
    0 < ((simPaths req Z).getD i []).getD t 0 ∧
    ((simPaths req Z).getD i []).getD 0 0 = req.current_price := by
  constructor
  · rw [simPaths_getD req Z hi ht]
    exact pathEntry_pos req Z i hp t
  · rw [simPaths_getD req Z hi (Nat.zero_le _)]
    rfl

theorem paths_positive_witness :
    (0 : ℝ) < wReq.current_price ∧ 0 < wReq.num_simulations ∧ 1 ≤ wReq.days ∧
    (0 < ((simPaths wReq zZero).getD 0 []).getD 1 0 ∧
      ((simPaths wReq zZero).getD 0 []).getD 0 0 = wReq.current_price) :=
  ⟨by norm_num [wReq], by norm_num [wReq], by norm_num [wReq],
    paths_positive wReq zZero 0 1 (by norm_num [wReq]) (by norm_num [wReq])
      (by norm_num [wReq])⟩

/-- C6: for every positive number of days, dt = (days/252)/days equals
1/252, so one step is always exactly one trading day. -/
theorem dt_is_one_trading_day (req : SimulationRequest) (hd : 1 ≤ req.days) :
    dtv req = 1 / 252 := by
  have h : (req.days : ℝ) ≠ 0 := Nat.cast_ne_zero.mpr (by omega)
  unfold dtv Tof
  field_simp
  ring

theorem dt_is_one_trading_day_witness : 1 ≤ wReq.days ∧ dtv wReq = 1 / 252 :=
  ⟨by norm_num [wReq], dt_is_one_trading_day wReq (by norm_num [wReq])⟩

/-- C7: with volatility = 0 every path is deterministic: the entry at
every row i and step t ≤ days equals current_price * exp(mu * t * dt),
independent of the drawn matrix Z and of num_simulations. -/
theorem zero_volatility_deterministic (req : SimulationRequest) (Z : ℕ → ℕ → ℝ)
    (i t : ℕ) (hp : 0 < req.current_price) (hv0 : req.volatility = 0)
    (hd : 1 ≤ req.days) (hn : 1 ≤ req.num_simulations) (ht : t ≤ req.days) :
    pathEntry req Z i t = req.current_price * Real.exp (muOf req * t * dtv req) :=
  pathEntry_volatility_zero req Z i hv0 t

/-- A zero-volatility concrete request used by the C7 witness. -/
def wReqV0 : SimulationRequest := ⟨100, 0, 5, 3, 0.02⟩

theorem zero_volatility_deterministic_witness :
    (0 : ℝ) < wReqV0.current_price ∧ wReqV0.volatility = 0 ∧
    1 ≤ wReqV0.days ∧ 1 ≤ wReqV0.num_simulations ∧ 2 ≤ wReqV0.days ∧
    pathEntry wReqV0 zZero 0 2 =
      wReqV0.current_price * Real.exp (muOf wReqV0 * (2 : ℕ) * dtv wReqV0) :=
  ⟨by norm_num [wReqV0], by norm_num [wReqV0], by norm_num [wReqV0],
    by norm_num [wReqV0], by norm_num [wReqV0],
    zero_volatility_deterministic wReqV0 zZero 0 2 (by norm_num [wReqV0])
      (by norm_num [wReqV0]) (by norm_num [wReqV0]) (by norm_num [wReqV0])
      (by norm_num [wReqV0])⟩

/-- A request with negative volatility, invalid per the spec. -/
def badReq : SimulationRequest := ⟨100, -1, 1, 1, 0.02⟩

/-- A request with non-positive price, invalid per the spec. -/
def badReqPrice : SimulationRequest := ⟨-5, 20, 2, 3, 0.02⟩

/-- C2 counterexample: at volatility = -1 (an input the claim says fails
with InvalidParameter) the code performs no validation and returns a
complete result. -/
theorem no_validation_counterexample :
    badReq.volatility < 0 ∧ (simulate badReq zZero).isSome = true :=
  ⟨by norm_num [badReq],
    by rw [simulate_eq_some badReq zZero (by norm_num [badReq])
      (by norm_num [badReq]) (by norm_num [badReq])]; rfl⟩

/-- C2 (amended): the code contains no input validation and no
InvalidParameter error exists.  With a nonempty ensemble (days ≥ 1,
num_simulations ≥ 1), simulate succeeds exactly when current_price ≠ 0:
negative volatility and negative price are accepted and produce a full
result, while current_price = 0 fails — not by validation but with an
unhandled ZeroDivisionError at the VaR-percentage division, after the
ensemble has been allocated and reduced, not before allocation. -/
theorem no_input_validation (req : SimulationRequest) (Z : ℕ → ℕ → ℝ)
    (hd : 1 ≤ req.days) (hn : 1 ≤ req.num_simulations) :
    (simulate req Z).isSome = true ↔ req.current_price ≠ 0 := by
  constructor
  · intro h hS
    rw [simulate_eq_none_of_price_zero req Z hn hS] at h
    simp at h
  · intro hS
    rw [simulate_eq_some req Z hd hS hn]
    rfl

theorem no_input_validation_witness :
    1 ≤ badReqPrice.days ∧ 1 ≤ badReqPrice.num_simulations ∧
    ((simulate badReqPrice zZero).isSome = true ↔ badReqPrice.current_price ≠ 0) :=
  ⟨by norm_num [badReqPrice], by norm_num [badReqPrice],
    no_input_validation badReqPrice zZero (by norm_num [badReqPrice])
      (by norm_num [badReqPrice])⟩

/-- C10: for num_simulations = N ≥ 1 the VaR index int(N * 0.05) is at
most N - 1, so the Option-valued access into the sorted final-prices
array of length N (the match scrutinee of simulate, reached before the
percentage division) never takes the none branch; consequently, when
the earlier dt division and the later percentage division also succeed
(days ≥ 1, current_price ≠ 0), simulate itself returns a result. -/
theorem var_index_in_bounds (req : SimulationRequest) (Z : ℕ → ℕ → ℝ)
    (hn : 1 ≤ req.num_simulations) :
    var_95_index req.num_simulations ≤ req.num_simulations - 1 ∧
    ((sortAsc (final_prices req Z))[var_95_index
      (sortAsc (final_prices req Z)).length]?).isSome = true ∧
    (req.current_price ≠ 0 → 1 ≤ req.days → (simulate req Z).isSome = true) := by
  have hlen : (sortAsc (final_prices req Z)).length = req.num_simulations := by
    rw [length_sortAsc, length_final_prices]
  have hidx : var_95_index (sortAsc (final_prices req Z)).length <
      (sortAsc (final_prices req Z)).length := by
    rw [hlen]; exact var_95_index_lt hn
  refine ⟨?_, ?_, ?_⟩
  · have := var_95_index_lt hn
    omega
  · rw [List.getElem?_eq_getElem hidx]
    rfl
  · intro hS hd
    rw [simulate_eq_some req Z hd hS hn]
    rfl

theorem var_index_in_bounds_witness :
    1 ≤ wReq.num_simulations ∧
    var_95_index wReq.num_simulations ≤ wReq.num_simulations - 1 ∧
    ((sortAsc (final_prices wReq zZero))[var_95_index
      (sortAsc (final_prices wReq zZero)).length]?).isSome = true ∧
    (simulate wReq zZero).isSome = true :=
  ⟨by norm_num [wReq], (var_index_in_bounds wReq zZero (by norm_num [wReq])).1,
    (var_index_in_bounds wReq zZero (by norm_num [wReq])).2.1,
    (var_index_in_bounds wReq zZero (by norm_num [wReq])).2.2
      (by norm_num [wReq]) (by norm_num [wReq])⟩

/-- C3: var_95_price is the sorted final-prices entry at the nearest-rank
index int(N * 0.05) rounded to 2 digits, var_95_loss is current_price
minus that (full-precision) entry rounded to 2 digits, and var_95_pct is
loss / current_price * 100 rounded to 2 digits. -/
theorem var95_nearest_rank (req : SimulationRequest) (Z : ℕ → ℕ → ℝ)
    (hp : 0 < req.current_price) (hv : 0 ≤ req.volatility)
    (hd : 1 ≤ req.days) (hn : 1 ≤ req.num_simulations) :
    (simulate req Z).map (fun r =>
        (r.statistics.var_95_price, r.statistics.var_95_loss, r.statistics.var_95_pct)) =
      some (round2 ((sortAsc (final_prices req Z)).getD (var_95_index req.num_simulations) 0),
        round2 (req.current_price -
          (sortAsc (final_prices req Z)).getD (var_95_index req.num_simulations) 0),
        round2 ((req.current_price -
          (sortAsc (final_prices req Z)).getD (var_95_index req.num_simulations) 0) /
            req.current_price * 100)) := by
  rw [simulate_eq_some req Z hd (ne_of_gt hp) hn]
  rfl

theorem var95_nearest_rank_witness :
    (0 : ℝ) < wReq.current_price ∧ (0 : ℝ) ≤ wReq.volatility ∧
    1 ≤ wReq.days ∧ 1 ≤ wReq.num_simulations ∧
    (simulate wReq zZero).map (fun r =>
        (r.statistics.var_95_price, r.statistics.var_95_loss, r.statistics.var_95_pct)) =
      some (round2 ((sortAsc (final_prices wReq zZero)).getD (var_95_index wReq.num_simulations) 0),
        round2 (wReq.current_price -
          (sortAsc (final_prices wReq zZero)).getD (var_95_index wReq.num_simulations) 0),
        round2 ((wReq.current_price -
          (sortAsc (final_prices wReq zZero)).getD (var_95_index wReq.num_simulations) 0) /
            wReq.current_price * 100)) :=
  ⟨by norm_num [wReq], by norm_num [wReq], by norm_num [wReq], by norm_num [wReq],
    var95_nearest_rank wReq zZero (by norm_num [wReq]) (by norm_num [wReq])
      (by norm_num [wReq]) (by norm_num [wReq])⟩

/-- C8: with a single simulated path, mean_final_price, var_95_price,
min_price and max_price all equal the single path's final value,
computed at full precision and then rounded to 2 digits. -/
theorem single_path_statistics (req : SimulationRequest) (Z : ℕ → ℕ → ℝ)
    (hp : 0 < req.current_price) (hv : 0 ≤ req.volatility)
    (hd : 1 ≤ req.days) (hn1 : req.num_simulations = 1) :
    (simulate req Z).map (fun r =>
        (r.statistics.mean_final_price, r.statistics.var_95_price,
          r.statistics.min_price, r.statistics.max_price)) =
      some (round2 (pathEntry req Z 0 req.days), round2 (pathEntry req Z 0 req.days),
        round2 (pathEntry req Z 0 req.days), round2 (pathEntry req Z 0 req.days)) := by
  have hfp : final_prices req Z = [pathEntry req Z 0 req.days] := by
    simp only [final_prices, pathColumn, hn1]
    rfl
  have hsort : sortAsc ([pathEntry req Z 0 req.days]) = [pathEntry req Z 0 req.days] := rfl
  have hidx : var_95_index req.num_simulations = 0 := by
    rw [hn1]
    unfold var_95_index
    rw [Nat.floor_eq_zero]
    norm_num
  rw [simulate_eq_some req Z hd (ne_of_gt hp) (by omega)]
  simp only [Option.map_some']
  rw [hfp, hsort, hidx]
  simp [listMean, listMin, listMax]

/-- A valid concrete request with a single path for the C8 witness. -/
def wReqOne : SimulationRequest := ⟨100, 20, 2, 1, 0.02⟩

theorem single_path_statistics_witness :
    (0 : ℝ) < wReqOne.current_price ∧ (0 : ℝ) ≤ wReqOne.volatility ∧
    1 ≤ wReqOne.days ∧ wReqOne.num_simulations = 1 ∧
    (simulate wReqOne zZero).map (fun r =>
        (r.statistics.mean_final_price, r.statistics.var_95_price,
          r.statistics.min_price, r.statistics.max_price)) =
      some (round2 (pathEntry wReqOne zZero 0 wReqOne.days),
        round2 (pathEntry wReqOne zZero 0 wReqOne.days),
        round2 (pathEntry wReqOne zZero 0 wReqOne.days),
        round2 (pathEntry wReqOne zZero 0 wReqOne.days)) :=
  ⟨by norm_num [wReqOne], by norm_num [wReqOne], by norm_num [wReqOne],
    by norm_num [wReqOne],
    single_path_statistics wReqOne zZero (by norm_num [wReqOne])
      (by norm_num [wReqOne]) (by norm_num [wReqOne]) (by norm_num [wReqOne])⟩

/-- The path recurrences of the two source files coincide. -/
lemma pathEntryM_eq_pathEntry (req : SimulationRequest) (Z : ℕ → ℕ → ℝ) (i : ℕ) :
    ∀ t, pathEntryM req Z i t = pathEntry req Z i t
  | 0 => rfl
  | t + 1 => by
    rw [pathEntryM, pathEntry, pathEntryM_eq_pathEntry req Z i t]
    rfl

/-- The path columns of the two source files coincide. -/
lemma pathColumnM_eq (req : SimulationRequest) (Z : ℕ → ℕ → ℝ) :
    pathColumnM req Z = pathColumn req Z := by
  funext t
  simp [pathColumnM, pathColumn, pathEntryM_eq_pathEntry]

/-- The final-prices lists of the two source files coincide. -/
lemma final_pricesM_eq (req : SimulationRequest) (Z : ℕ → ℕ → ℝ) :
    final_pricesM req Z = final_prices req Z := by
  rw [final_pricesM, final_prices, pathColumnM_eq]

/-- With a nonempty ensemble and at least one day, main.py's endpoint
always completes — also at current_price = 0, where its numpy scalar
divisions yield NaN instead of raising. -/
lemma simulate_risk_isSome (req : SimulationRequest) (Z : ℕ → ℕ → ℝ)
    (hd : 1 ≤ req.days) (hn : 1 ≤ req.num_simulations) :
    (simulate_risk req Z).isSome = true := by
  have hlen : (sortAsc (final_pricesM req Z)).length = req.num_simulations := by
    rw [final_pricesM_eq, length_sortAsc, length_final_prices]
  have hidx : var_95_index (sortAsc (final_pricesM req Z)).length <
      (sortAsc (final_pricesM req Z)).length := by
    rw [hlen]; exact var_95_index_lt hn
  have hsome := List.getElem?_eq_getElem hidx
  have hd0 : ¬ req.days = 0 := by omega
  simp only [simulate_risk, if_neg hd0, hsome]
  rfl

/-- The zero-price request on which the two source files diverge. -/
def cReq9 : SimulationRequest := ⟨0, 20, 1, 1, 0.02⟩

/-- C9 counterexample: at current_price = 0 the two engines do not
compute identical outputs: simulate.py's plain-float division raises
ZeroDivisionError (simulate = none) while main.py's numpy division
yields NaN and the endpoint returns a complete response
(simulate_risk = some). -/
theorem engines_diverge_counterexample :
    simulate_risk cReq9 zZero ≠ simulate cReq9 zZero := by
  have h1 : simulate cReq9 zZero = none :=
    simulate_eq_none_of_price_zero cReq9 zZero (by norm_num [cReq9])
      (by norm_num [cReq9])
  have h2 : (simulate_risk cReq9 zZero).isSome = true :=
    simulate_risk_isSome cReq9 zZero (by norm_num [cReq9]) (by norm_num [cReq9])
  intro h
  rw [h, h1] at h2
  simp at h2

/-- C9 (amended): for every parameter record with current_price ≠ 0 and
every fixed draw matrix Z, the function simulate of src/api/simulate.py
and the endpoint body simulate_risk of src/api/main.py compute
identical outputs (paths, mean_path, percentile bands, final_prices and
the statistics mapping); at current_price = 0 they diverge: simulate.py
raises ZeroDivisionError while main.py returns a NaN-filled result. -/
theorem engines_agree (req : SimulationRequest) (Z : ℕ → ℕ → ℝ)
    (hS : req.current_price ≠ 0) :
    simulate_risk req Z = simulate req Z := by
  by_cases hd0 : req.days = 0
  · simp [simulate, simulate_risk, hd0]
  · have hpaths : simPathsM req Z = simPaths req Z := by
      simp [simPathsM, simPaths, pathEntryM_eq_pathEntry]
    have hmean : mean_pathM req Z = mean_path req Z := by
      rw [mean_pathM, mean_path, pathColumnM_eq]
    have hp5 : percentile_5M req Z = percentile_5 req Z := by
      rw [percentile_5M, percentile_5, pathColumnM_eq]
    have hp95 : percentile_95M req Z = percentile_95 req Z := by
      rw [percentile_95M, percentile_95, pathColumnM_eq]
    simp only [simulate_risk, simulate, if_neg hd0, final_pricesM_eq,
      hpaths, hmean, hp5, hp95, if_neg hS]

theorem engines_agree_witness :
    wReq.current_price ≠ 0 ∧ simulate_risk wReq zZero = simulate wReq zZero :=
  ⟨by norm_num [wReq], engines_agree wReq zZero (by norm_num [wReq])⟩

/-! Lemmas about the percentile bands, used to settle the claim on the
mean / percentile sandwich. -/

/-- Sorting a sorted list is the identity. -/
lemma sortAsc_of_sorted {l : List ℝ} (h : List.Sorted (· ≤ ·) l) : sortAsc l = l :=
  h.insertionSort_eq

/-- The mean of a constant nonempty sample is the constant. -/
lemma listMean_replicate {n : ℕ} (hn : 1 ≤ n) (x : ℝ) :
    listMean (List.replicate n x) = x := by
  have hn0 : (n : ℝ) ≠ 0 := Nat.cast_ne_zero.mpr (by omega)
  rw [listMean]
  simp only [List.sum_replicate, nsmul_eq_mul, List.length_replicate]
  rw [mul_comm, mul_div_assoc, div_self hn0, mul_one]

/-- The interpolated percentile of a constant nonempty sample is the
constant, for any percentage between 0 and 100. -/
lemma npPercentile_replicate {q : ℝ} {n : ℕ} (x : ℝ) (hn : 1 ≤ n)
    (hq0 : 0 ≤ q) (hq1 : q ≤ 100) :
    npPercentile q (List.replicate n x) = x := by
  have hn1 : (1 : ℝ) ≤ (n : ℝ) := by exact_mod_cast hn
  have hsorted : List.Sorted (· ≤ ·) (List.replicate n x) :=
    List.pairwise_replicate.mpr (Or.inr le_rfl)
  simp only [npPercentile, sortAsc_of_sorted hsorted, List.length_replicate]
  have hq100 : q / 100 ≤ 1 := by
    rw [div_le_one (by norm_num : (0:ℝ) < 100)]
    exact hq1
  have hpos0 : 0 ≤ q / 100 * ((n : ℝ) - 1) := by
    have h1 : (0:ℝ) ≤ (n : ℝ) - 1 := by linarith
    have h2 : (0:ℝ) ≤ q / 100 := by positivity
    exact mul_nonneg h2 h1
  have hposle : q / 100 * ((n : ℝ) - 1) ≤ (n : ℝ) - 1 := by
    nlinarith [sub_nonneg.mpr hn1]
  have hflo : (⌊q / 100 * ((n : ℝ) - 1)⌋₊ : ℝ) ≤ q / 100 * ((n : ℝ) - 1) :=
    Nat.floor_le hpos0
  have hlt : ⌊q / 100 * ((n : ℝ) - 1)⌋₊ < n := by
    rw [Nat.floor_lt hpos0]
    linarith
  have hgi : (List.replicate n x).getD ⌊q / 100 * ((n : ℝ) - 1)⌋₊ 0 = x := by
    rw [List.getD_eq_getElem?_getD, List.getElem?_replicate, if_pos hlt]
    rfl
  by_cases hcase : ⌊q / 100 * ((n : ℝ) - 1)⌋₊ + 1 < n
  · have hgi1 : (List.replicate n x).getD (⌊q / 100 * ((n : ℝ) - 1)⌋₊ + 1) 0 = x := by
      rw [List.getD_eq_getElem?_getD, List.getElem?_replicate, if_pos hcase]
      rfl
    rw [hgi, hgi1]
    ring
  · have hge : (n : ℝ) - 1 ≤ (⌊q / 100 * ((n : ℝ) - 1)⌋₊ : ℝ) := by
      have h2 : n ≤ ⌊q / 100 * ((n : ℝ) - 1)⌋₊ + 1 := by omega
      have h3 : (n : ℝ) ≤ (⌊q / 100 * ((n : ℝ) - 1)⌋₊ : ℝ) + 1 := by exact_mod_cast h2
      linarith
    have hzero : q / 100 * ((n : ℝ) - 1) - (⌊q / 100 * ((n : ℝ) - 1)⌋₊ : ℝ) = 0 := by
      linarith
    rw [hgi, hzero]
    ring

/-- Reading the mean path at step t gives the column mean. -/
lemma mean_path_getD (req : SimulationRequest) (Z : ℕ → ℕ → ℝ) {t : ℕ}
    (ht : t ≤ req.days) :
    (mean_path req Z).getD t 0 = listMean (pathColumn req Z t) := by
  have ht' : t < req.days + 1 := by omega
  simp [mean_path, List.getD_eq_getElem?_getD, List.getElem?_map,
    List.getElem?_range, ht']

/-- Reading the 5th-percentile band at step t gives the column percentile. -/
lemma percentile_5_getD (req : SimulationRequest) (Z : ℕ → ℕ → ℝ) {t : ℕ}
    (ht : t ≤ req.days) :
    (percentile_5 req Z).getD t 0 = npPercentile 5 (pathColumn req Z t) := by
  have ht' : t < req.days + 1 := by omega
  simp [percentile_5, List.getD_eq_getElem?_getD, List.getElem?_map,
    List.getElem?_range, ht']

/-- Reading the 95th-percentile band at step t gives the column percentile. -/
lemma percentile_95_getD (req : SimulationRequest) (Z : ℕ → ℕ → ℝ) {t : ℕ}
    (ht : t ≤ req.days) :
    (percentile_95 req Z).getD t 0 = npPercentile 95 (pathColumn req Z t) := by
  have ht' : t < req.days + 1 := by omega
  simp [percentile_95, List.getD_eq_getElem?_getD, List.getElem?_map,
    List.getElem?_range, ht']

/-- Column 0 of the ensemble is the starting price repeated. -/
lemma pathColumn_zero (req : SimulationRequest) (Z : ℕ → ℕ → ℝ) :
    pathColumn req Z 0 = List.replicate req.num_simulations req.current_price := by
  rw [List.eq_replicate_iff]
  refine ⟨by simp [pathColumn], ?_⟩
  intro b hb
  simp only [pathColumn, List.mem_map, List.mem_range] at hb
  obtain ⟨i, _, rfl⟩ := hb
  rfl

/-- Counterexample input for the sandwich claim: price 1, volatility 100
(sigma = 1), one day, 100 paths, zero drift. -/
def cReq : SimulationRequest := ⟨1, 100, 1, 100, 0⟩

/-- Counterexample draws: one outlier path (row 99) with draw 1, all
other paths draw 0. -/
def cZ : ℕ → ℕ → ℝ := fun i _ => if i = 99 then 1 else 0

/-- C5 counterexample: for the valid input cReq and the draw matrix cZ,
at step t = 1 the cross-path mean strictly exceeds the interpolated
95th percentile, so mean_path[t] ≤ percentile_95[t] fails. -/
theorem sandwich_counterexample :
    ¬ ((mean_path cReq cZ).getD 1 0 ≤ (percentile_95 cReq cZ).getD 1 0) := by
  set A := Real.exp (-(1/504) : ℝ) with hA
  set B := Real.exp (-(1/504) + Real.sqrt (1/252)) with hB
  have hstep : ∀ i, pathEntry cReq cZ i 1 =
      Real.exp ((0 - 0.5 * 1 ^ 2) * (1/252) + 1 * Real.sqrt (1/252) * cZ i 0) := by
    intro i
    have h1 : pathEntry cReq cZ i 1 = pathEntry cReq cZ i 0 *
        Real.exp ((muOf cReq - 0.5 * sigmaOf cReq ^ 2) * dtv cReq +
          sigmaOf cReq * Real.sqrt (dtv cReq) * cZ i 0) := rfl
    have hmu : muOf cReq = 0 := by norm_num [muOf, cReq]
    have hsig : sigmaOf cReq = 1 := by norm_num [sigmaOf, cReq]
    have hdt : dtv cReq = 1/252 := by norm_num [dtv, Tof, cReq]
    have h0 : pathEntry cReq cZ i 0 = 1 := by norm_num [pathEntry, cReq]
    rw [h1, hmu, hsig, hdt, h0, one_mul]
  have hAcase : ∀ i, i ≠ 99 → pathEntry cReq cZ i 1 = A := by
    intro i hi
    have hz : cZ i 0 = 0 := by simp [cZ, hi]
    rw [hstep i, hz, hA]
    congr 1
    norm_num
  have hBcase : pathEntry cReq cZ 99 1 = B := by
    have hz : cZ 99 0 = 1 := by simp [cZ]
    rw [hstep 99, hz, hB]
    congr 1
    ring_nf
  have hcol : pathColumn cReq cZ 1 = List.replicate 99 A ++ [B] := by
    have hNum : cReq.num_simulations = 100 := rfl
    rw [pathColumn, hNum, List.range_succ, List.map_append]
    congr 1
    · rw [List.eq_replicate_iff]
      refine ⟨by simp, ?_⟩
      intro b hb
      simp only [List.mem_map, List.mem_range] at hb
      obtain ⟨i, hi, rfl⟩ := hb
      exact hAcase i (by omega)
    · simp [hBcase]
  have hAB : A < B := by
    rw [hA, hB, Real.exp_lt_exp]
    have h := Real.sqrt_pos.mpr (show (0:ℝ) < 1/252 by norm_num)
    linarith
  have hsorted : List.Sorted (· ≤ ·) (List.replicate 99 A ++ [B]) := by
    rw [List.Sorted, List.pairwise_append]
    refine ⟨List.pairwise_replicate.mpr (Or.inr le_rfl), by simp, ?_⟩
    intro x hx y hy
    rw [List.eq_of_mem_replicate hx, List.mem_singleton.mp hy]
    exact le_of_lt hAB
  have hmean : listMean (List.replicate 99 A ++ [B]) = (99 * A + B) / 100 := by
    rw [listMean]
    simp only [List.sum_append, List.sum_replicate, nsmul_eq_mul,
      List.length_append, List.length_replicate, List.sum_singleton,
      List.length_singleton]
    norm_num
  have hp95 : npPercentile 95 (List.replicate 99 A ++ [B]) = A := by
    simp only [npPercentile, sortAsc_of_sorted hsorted, List.length_append,
      List.length_replicate, List.length_singleton]
    have hcast : (((99 + 1 : ℕ) : ℝ) - 1) = 99 := by norm_num
    rw [hcast]
    have hfloor : ⌊(95:ℝ)/100 * 99⌋₊ = 94 := by
      rw [Nat.floor_eq_iff (by norm_num)]
      norm_num
    rw [hfloor]
    have h94 : (List.replicate 99 A ++ [B]).getD 94 0 = A := by
      rw [List.getD_eq_getElem?_getD, List.getElem?_append_left (by simp),
        List.getElem?_replicate]
      norm_num
    have h95 : (List.replicate 99 A ++ [B]).getD 95 0 = A := by
      rw [List.getD_eq_getElem?_getD, List.getElem?_append_left (by simp),
        List.getElem?_replicate]
      norm_num
    rw [h94, h95]
    ring
  have h1 : (mean_path cReq cZ).getD 1 0 = listMean (pathColumn cReq cZ 1) :=
    mean_path_getD cReq cZ (by norm_num [cReq])
  have h2 : (percentile_95 cReq cZ).getD 1 0 = npPercentile 95 (pathColumn cReq cZ 1) :=
    percentile_95_getD cReq cZ (by norm_num [cReq])
  rw [h1, h2, hcol, hmean, hp95]
  push_neg
  rw [lt_div_iff₀ (by norm_num : (0:ℝ) < 100)]
  linarith

/-- C5 (amended): the sandwich percentile_5[t] ≤ mean_path[t] ≤
percentile_95[t] holds at step t = 0 for every valid input and every
draw (all three bands start at the common value current_price); for
steps t ≥ 1 it can fail for particular draws of Z. -/
theorem sandwich_at_start (req : SimulationRequest) (Z : ℕ → ℕ → ℝ)
    (hp : 0 < req.current_price) (hv : 0 ≤ req.volatility)
    (hd : 1 ≤ req.days) (hn : 1 ≤ req.num_simulations) :
    (percentile_5 req Z).getD 0 0 ≤ (mean_path req Z).getD 0 0 ∧
    (mean_path req Z).getD 0 0 ≤ (percentile_95 req Z).getD 0 0 := by
  rw [mean_path_getD req Z (Nat.zero_le _), percentile_5_getD req Z (Nat.zero_le _),
    percentile_95_getD req Z (Nat.zero_le _), pathColumn_zero req Z,
    listMean_replicate hn, npPercentile_replicate _ hn (by norm_num) (by norm_num),
    npPercentile_replicate _ hn (by norm_num) (by norm_num)]
  exact ⟨le_rfl, le_rfl⟩

theorem sandwich_at_start_witness :
    (0 : ℝ) < wReq.current_price ∧ (0 : ℝ) ≤ wReq.volatility ∧
    1 ≤ wReq.days ∧ 1 ≤ wReq.num_simulations ∧
    ((percentile_5 wReq zZero).getD 0 0 ≤ (mean_path wReq zZero).getD 0 0 ∧
      (mean_path wReq zZero).getD 0 0 ≤ (percentile_95 wReq zZero).getD 0 0) :=
  ⟨by norm_num [wReq], by norm_num [wReq], by norm_num [wReq], by norm_num [wReq],
    sandwich_at_start wReq zZero (by norm_num [wReq]) (by norm_num [wReq])
      (by norm_num [wReq]) (by norm_num [wReq])⟩

end






